import Mathlib

/-!
Verification of the glslViewer web front-end (the UI, editor, GitHub and
WASM-bridge modules) against its specification.  Each JavaScript method the
claims touch is embedded as an executable Lean function over an explicit
state/environment; the surrounding browser machinery (DOM handles, fetch,
timers) is represented by environment records whose fields say how each
external call would answer.
-/

/-! ## Loader counter (src/assets/wasm/ui.js, UIManager)

The loader DOM element is assumed present (the page defines it); the state
tracks the `loaderCount` field and whether the element carries the `visible`
class.  `showLoader`/`hideLoader` follow ui.js lines 31-48: show increments
and adds the class when the count is positive; hide decrements and, when the
count has fallen to 0 or below, removes the class and clamps the count to 0. -/

structure LoaderState where
  loaderCount : Int
  visible : Bool
deriving DecidableEq

/-- ui.js lines 31-35 (the optional text update touches only the label). -/
def showLoader (s : LoaderState) : LoaderState :=
  let c := s.loaderCount + 1
  { loaderCount := c, visible := if 0 < c then true else s.visible }

/-- ui.js lines 41-48. -/
def hideLoader (s : LoaderState) : LoaderState :=
  let c := s.loaderCount - 1
  if c ≤ 0 then { loaderCount := 0, visible := false }
  else { loaderCount := c, visible := s.visible }

inductive LoaderCall where
  | showCall
  | hideCall
deriving DecidableEq

def loaderStep (c : LoaderCall) (s : LoaderState) : LoaderState :=
  match c with
  | .showCall => showLoader s
  | .hideCall => hideLoader s

def runLoader : List LoaderCall → LoaderState → LoaderState
  | [], s => s
  | c :: cs, s => runLoader cs (loaderStep c s)

def loaderInit : LoaderState := { loaderCount := 0, visible := false }

/-! ## Error-line highlighting (editor module, EditorManager.setupErrorHighlighting)

The handler matches the event text against the regex `^0:(\d+):(.*)$` with no
flags: in ECMAScript, without the `m` flag `^` matches only at the start of
the string and `$` only at its true end (never before a trailing newline),
and `.` matches any character except a line terminator (`\n`, `\r`, U+2028,
U+2029).  So a text matches exactly when it is `0:<digits>:<rest>` with
`<rest>` free of line terminators.  The handler then parses the captured
digits, subtracts 1, and adds the `error-line` class when the result lies in
`[0, lineCount)`.  Decorated lines are modelled as the list of zero-based
line numbers given the class, in the order decorated. -/

def digitsVal (ds : List Char) : Nat :=
  ds.foldl (fun n c => n * 10 + (c.toNat - 48)) 0

/-- An ECMAScript line terminator: the characters `.` never matches. -/
def isJsLineTerminator (c : Char) : Bool :=
  c = '\n' || c = '\r' || c = '\u2028' || c = '\u2029'

/-- The JS regex match `text.match(/^0:(\d+):(.*)$/)`: `some line` when the
whole text has the form `0:<digits>:<rest>` with `<rest>` free of line
terminators, `none` otherwise. -/
def matchGlslError (text : String) : Option Nat :=
  match text.data with
  | '0' :: ':' :: rest =>
    let ds := rest.takeWhile Char.isDigit
    let rest2 := rest.dropWhile Char.isDigit
    if ds.isEmpty then none
    else
      match rest2 with
      | ':' :: tail =>
        if tail.any isJsLineTerminator then none else some (digitsVal ds)
      | _ => none
  | _ => none

/-- The `wasm-stderr` handler body (editor module, setupErrorHighlighting):
`lineCount` is the editor's line count, `decorated` the lines already carrying
the `error-line` class. -/
def handleWasmStderr (lineCount : Nat) (decorated : List Nat) (text : String) : List Nat :=
  match matchGlslError text with
  | none => decorated
  | some line =>
    let cmLine : Int := (line : Int) - 1
    if 0 ≤ cmLine ∧ cmLine < (lineCount : Int) then decorated ++ [cmLine.toNat]
    else decorated

/-! ## Debounced change notification (editor module, EditorManager.onChange)

Each raw edit clears any pending timeout and schedules a fresh one
`debounceMs` later, so at most one timer is live.  `debounceFires` takes the
ascending list of edit times and the currently pending due time and returns
the times at which the timer body actually runs: a pending timer survives
only if it is due no later than the next edit; the last timer always runs.
When the body runs, it invokes the callback only if the live editor text
differs from the stored snapshot of the active buffer. -/

def debounceFires (d : Nat) : List Nat → Option Nat → List Nat
  | [], pending =>
    match pending with
    | some due => [due]
    | none => []
  | t :: rest, pending =>
    match pending with
    | some due =>
      if due ≤ t then due :: debounceFires d rest (some (t + d))
      else debounceFires d rest (some (t + d))
    | none => debounceFires d rest (some (t + d))

/-- onChange's timer body guard (lines 145-148): the callback runs iff the
live text differs from the snapshot. -/
def debounceCallbackRuns (currentCode snapshot : String) : Bool :=
  currentCode != snapshot

/-- Edits are strictly ascending and each gap is under the debounce window. -/
def stepsWithin (d : Nat) : List Nat → Bool
  | t1 :: t2 :: rest => decide (t1 < t2) && decide (t2 - t1 < d) && stepsWithin d (t2 :: rest)
  | _ => true

/-! ## Tab switching (editor module, EditorManager.switchTab)

The editor state carries the active buffer, the two stored buffer texts, the
live widget text, the widget's syntax-mode option, and the (possibly stale)
debounce-timeout field.  `switchTab` returns the new state together with
whether the `onSwitch` callback was invoked (the flush of a pending debounced
notification). -/

inductive ShaderTab where
  | frag
  | vert
deriving DecidableEq

def ShaderTab.modeOf : ShaderTab → String
  | .frag => "x-shader/x-fragment"
  | .vert => "x-shader/x-vertex"

structure EditorState where
  activeTab : ShaderTab
  contentFrag : String
  contentVert : String
  editorValue : String
  editorMode : String
  updateTimeout : Option Nat
deriving DecidableEq

def EditorState.content (s : EditorState) (t : ShaderTab) : String :=
  match t with
  | .frag => s.contentFrag
  | .vert => s.contentVert

def EditorState.setContentSlot (s : EditorState) (t : ShaderTab) (v : String) : EditorState :=
  match t with
  | .frag => { s with contentFrag := v }
  | .vert => { s with contentVert := v }

/-- EditorManager.switchTab: early return when the tab is already active;
otherwise clear the timeout (invoking onSwitch when the field was non-null;
the field itself is not reset), snapshot the widget text into the outgoing
slot, set the new active tab, set the syntax mode, and load the incoming
buffer's text into the widget. -/
def switchTab (s : EditorState) (ty : ShaderTab) : EditorState × Bool :=
  if ty = s.activeTab then (s, false)
  else
    let flushed := s.updateTimeout.isSome
    let s1 := s.setContentSlot s.activeTab s.editorValue
    let s2 : EditorState :=
      { s1 with
        activeTab := ty
        editorMode := ty.modeOf
        editorValue := s1.content ty }
    (s2, flushed)

/-! ## Gist-load re-entrancy guard (src/assets/wasm/github.js, loadGist)

`loadGistStart` is the synchronous prefix of `loadGist` up to the first
`await`: the guard `if (this.currentGistId === id) return;` followed by the
assignment `this.currentGistId = id;`.  Its Bool result says whether the
network fetch for the gist is issued.  `loadGistCatch` is the catch handler
(lines 294-300): any failure during fetch/parse resets `currentGistId` to
null. -/

structure GistLoadState where
  currentGistId : Option String
deriving DecidableEq

def loadGistStart (s : GistLoadState) (gid : String) : GistLoadState × Bool :=
  if s.currentGistId = some gid then (s, false)
  else ({ currentGistId := some gid }, true)

def loadGistCatch (_s : GistLoadState) : GistLoadState :=
  { currentGistId := none }

/-! ## WASM bridge (src/assets/wasm/glslviewer.js)

The module-level environment: whether `window.Module` (with its `ccall`
member) exists, whether the external loader has set `window.module_loaded`,
and how the module's `command`/`query` entry points behave (`none` for
`queryAnswer` models a throw from `ccall`, which the bridge catches). -/

def cmds_state : List String :=
  ["plot", "textures", "buffers", "floor", "cubemap", "axis", "grid", "bboxes", "fullscreen"]

def cmds_camera : List String :=
  ["camera_position", "camera_look_at", "camera"]

def cmds_listen : List String :=
  ["plane", "pcl_plane", "sphere", "pcl_sphere", "icosphere", "cylinder"]

structure ModuleEnv where
  modulePresent : Bool
  moduleLoaded : Bool
  commandThrows : String → Bool
  queryAnswer : String → Option String

structure BridgeState where
  cmdsHistory : List String
deriving DecidableEq

/-- glslviewer.js lines 16-18. -/
def isModuleReady (env : ModuleEnv) : Bool :=
  env.modulePresent && env.moduleLoaded

/-- `cmds_listen.some(c => cmd.startsWith(c))` (prefix test on the character
lists). -/
def startsWithAnyListen (cmd : String) : Bool :=
  cmds_listen.any (fun c => c.data.isPrefixOf cmd.data)

structure SendResult where
  state : BridgeState
  moduleCalled : Bool
  warnedNotReady : Bool
  errorLogged : Bool
deriving DecidableEq

/-- glslviewer.js lines 20-38: the history push happens before the
`window.Module && window.Module.ccall` check; absent module logs
`Module not ready.`; a throwing ccall is caught and logged. -/
def sendCommand (env : ModuleEnv) (s : BridgeState) (cmd : String) : SendResult :=
  let s1 : BridgeState :=
    if startsWithAnyListen cmd then { cmdsHistory := s.cmdsHistory ++ [cmd] } else s
  if env.modulePresent then
    if env.commandThrows cmd then
      { state := s1, moduleCalled := true, warnedNotReady := false, errorLogged := true }
    else
      { state := s1, moduleCalled := true, warnedNotReady := false, errorLogged := false }
  else
    { state := s1, moduleCalled := false, warnedNotReady := true, errorLogged := false }

/-- glslviewer.js lines 40-50: null without the module; a throwing ccall is
caught and yields null. -/
def queryBridge (env : ModuleEnv) (cmd : String) : Option String :=
  if env.modulePresent then env.queryAnswer cmd else none

/-- JS `[...new Set(l)]`: deduplicate keeping the first occurrence of each
element, preserving order. -/
def jsSetDedup {α : Type} [DecidableEq α] : List α → List α
  | [] => []
  | a :: as => a :: jsSetDedup (as.filter (fun b => decide (b ≠ a)))
termination_by l => l.length
decreasing_by
  simp only [List.length_cons]
  exact Nat.lt_succ_of_le (List.length_filter_le _ _)

/-- The `name,value` pairs pushed by getRetainedState's loop (lines 55-61):
for each name of the deduplicated check list, a pair is pushed exactly when
the query answer is truthy (a non-null, non-empty string). -/
def derivedPairs (env : ModuleEnv) : List String :=
  (jsSetDedup (cmds_state ++ cmds_camera)).filterMap (fun cmd =>
    match queryBridge env cmd with
    | some a => if a = "" then none else some (cmd ++ "," ++ a)
    | none => none)

/-- glslviewer.js lines 52-66: the result starts from a copy of
`cmdsHistory`, appends the derived pairs, and is deduplicated preserving
first-occurrence order; the bridge state itself is returned unchanged. -/
def getRetainedState (env : ModuleEnv) (s : BridgeState) : BridgeState × List String :=
  (s, jsSetDedup (s.cmdsHistory ++ derivedPairs env))

/-! ## Asset write retry (glslviewer.js, loadToWasm lines 134-170)

`readyAt k` tells whether `window.Module && window.Module.FS &&
window.module_loaded` holds at the k-th attempt (attempts are 500ms apart);
`writeThrows` whether the filesystem write throws (the catch resolves the
promise anyway).  The outcome records whether the promise resolved, what was
written/registered, whether the `cubemap,on` command was issued, and how many
attempts/500ms delays were consumed. -/

structure WasmEnv where
  readyAt : Nat → Bool
  writeThrows : Bool

structure LoadOutcome where
  resolved : Bool
  wrote : Bool
  assetRegistered : Option (String × String)
  cubemapOn : Bool
  timedOut : Bool
  attemptsMade : Nat
  delaysTaken : Nat
deriving DecidableEq

/-- `name.split('.').pop().toLowerCase()`. -/
def extOf (name : String) : String :=
  ((name.splitOn ".").getLastD "").toLower

def tryWrite (env : WasmEnv) (name : String) (attemptsBefore : Nat) : LoadOutcome :=
  if attemptsBefore + 1 > 20 then
    { resolved := true, wrote := false, assetRegistered := none, cubemapOn := false,
      timedOut := true, attemptsMade := 1, delaysTaken := 0 }
  else if env.readyAt (attemptsBefore + 1) then
    if env.writeThrows then
      { resolved := true, wrote := false, assetRegistered := none, cubemapOn := false,
        timedOut := false, attemptsMade := 1, delaysTaken := 0 }
    else
      { resolved := true, wrote := true, assetRegistered := some (name, extOf name),
        cubemapOn := extOf name == "hdr", timedOut := false,
        attemptsMade := 1, delaysTaken := 0 }
  else
    let r := tryWrite env name (attemptsBefore + 1)
    { r with attemptsMade := r.attemptsMade + 1, delaysTaken := r.delaysTaken + 1 }
termination_by 21 - attemptsBefore
decreasing_by omega

def loadToWasm (env : WasmEnv) (name : String) : LoadOutcome :=
  tryWrite env name 0

/-! ## Gist saving (github.js, saveGist lines 303-378 and pruneGistHistory
lines 168-190)

A history entry is identified by its gist id (the only field pruning
consults; the owner/timestamp payload rides along unchanged and is omitted).
The environment fixes the credential, the outcome of the per-entry existence
probe during pruning, and the outcome of the save POST. -/

inductive CheckOutcome where
  | ok
  | notFound
  | netError
deriving DecidableEq

/-- pruneGistHistory: keep entries whose probe succeeds (`response.ok`) or
whose probe throws (transient failure tolerated); drop entries whose probe
returns non-ok. -/
def pruneGistHistory (check : String → CheckOutcome) (hist : List String) : List String :=
  hist.filter (fun g =>
    match check g with
    | .ok => true
    | .notFound => false
    | .netError => true)

inductive SaveResult where
  | thrown
  | returned (gid : Option String)
deriving DecidableEq

structure SaveEnv where
  token : Option String
  check : String → CheckOutcome
  saveResponse : Option String

structure SaveOutcome where
  result : SaveResult
  history : List String
  networkUsed : Bool
  alerted : Bool

/-- saveGist: without a token, alert and return null touching nothing; with
one, prune the history, POST the gist, and on a failed POST rethrow leaving
the history as pruning left it; on success record the new id. -/
def saveGist (env : SaveEnv) (hist : List String) : SaveOutcome :=
  match env.token with
  | none => { result := .returned none, history := hist, networkUsed := false, alerted := true }
  | some _ =>
    let hist1 := pruneGistHistory env.check hist
    match env.saveResponse with
    | none => { result := .thrown, history := hist1, networkUsed := true, alerted := false }
    | some newId =>
      let hist2 := if hist1.contains newId then hist1 else hist1 ++ [newId]
      { result := .returned (some newId), history := hist2, networkUsed := true, alerted := false }

/-! Concrete environments used by counterexamples. -/

def notReadyEnv : ModuleEnv :=
  { modulePresent := false, moduleLoaded := false,
    commandThrows := fun _ => false, queryAnswer := fun _ => none }

def halfLoadedEnv : ModuleEnv :=
  { modulePresent := true, moduleLoaded := false,
    commandThrows := fun _ => false, queryAnswer := fun _ => none }

def saveFailEnv : SaveEnv :=
  { token := some "tok", check := fun _ => CheckOutcome.notFound, saveResponse := none }

/-! ## Theorems -/

theorem showLoader_preserves (s : LoaderState) (h1 : 0 ≤ s.loaderCount) :
    0 ≤ (showLoader s).loaderCount
    ∧ ((showLoader s).visible ↔ 0 < (showLoader s).loaderCount) := by
  simp only [showLoader]
  refine ⟨by omega, ?_⟩
  rw [if_pos (by omega)]
  simp only [true_iff]
  omega

theorem hideLoader_preserves (s : LoaderState) (h1 : 0 ≤ s.loaderCount)
    (h2 : s.visible ↔ 0 < s.loaderCount) :
    0 ≤ (hideLoader s).loaderCount
    ∧ ((hideLoader s).visible ↔ 0 < (hideLoader s).loaderCount) := by
  simp only [hideLoader]
  split
  · simp
  · dsimp only
    refine ⟨by omega, ?_⟩
    rw [h2]
    rename_i hc
    constructor <;> intro <;> omega

theorem runLoader_preserves (calls : List LoaderCall) :
    ∀ s : LoaderState, 0 ≤ s.loaderCount → (s.visible ↔ 0 < s.loaderCount) →
      0 ≤ (runLoader calls s).loaderCount
      ∧ ((runLoader calls s).visible ↔ 0 < (runLoader calls s).loaderCount) := by
  induction calls with
  | nil => exact fun s h1 h2 => ⟨h1, h2⟩
  | cons c cs ih =>
    intro s h1 h2
    rcases c with _ | _
    · exact ih _ (showLoader_preserves s h1).1 (showLoader_preserves s h1).2
    · exact ih _ (hideLoader_preserves s h1 h2).1 (hideLoader_preserves s h1 h2).2

/-- C1: starting from count 0, after any sequence of showLoader/hideLoader
calls the loader counter is never negative and the loader is visible iff the
(clamped) net count is positive; each showLoader increments the counter and
each hideLoader decrements it, clamped to 0. -/
theorem loaderCounter_spec (calls : List LoaderCall) :
    0 ≤ (runLoader calls loaderInit).loaderCount
    ∧ ((runLoader calls loaderInit).visible ↔ 0 < (runLoader calls loaderInit).loaderCount)
    ∧ (∀ s : LoaderState, (showLoader s).loaderCount = s.loaderCount + 1)
    ∧ (∀ s : LoaderState, (hideLoader s).loaderCount = max (s.loaderCount - 1) 0) := by
  have h := runLoader_preserves calls loaderInit (by simp [loaderInit]) (by simp [loaderInit])
  refine ⟨h.1, h.2, fun s => rfl, fun s => ?_⟩
  simp only [hideLoader]
  split <;> dsimp only <;> omega

/-- C2 (amended): an error event matching `0:<line>:<text>` decorates
zero-based line `<line> - 1` exactly when `line ≥ 1` and `line - 1` is inside
the document; `line = 0` (which would map to -1) and out-of-range lines
decorate nothing; the handler is total, so no exception is raised. -/
theorem errorLine_mapping (lc : Nat) (dec : List Nat) (text : String) (line : Nat)
    (h : matchGlslError text = some line) :
    handleWasmStderr lc dec text =
      (if 1 ≤ line ∧ line - 1 < lc then dec ++ [line - 1] else dec) := by
  unfold handleWasmStderr
  rw [h]
  dsimp only
  by_cases h1 : 1 ≤ line ∧ line - 1 < lc
  · have h2 : (0 : Int) ≤ (line : Int) - 1 ∧ (line : Int) - 1 < (lc : Int) := by omega
    rw [if_pos h2, if_pos h1,
      show (((line : Int) - 1).toNat) = line - 1 by omega]
  · have h2 : ¬((0 : Int) ≤ (line : Int) - 1 ∧ (line : Int) - 1 < (lc : Int)) := by omega
    rw [if_neg h2, if_neg h1]

/-- C2 witness: the event text `0:12:syntax error` decorates zero-based
line 11 when the document has 20 lines. -/
theorem errorLine_mapping_witness :
    handleWasmStderr 20 [] "0:12:syntax error" = [11] := by
  have h := errorLine_mapping 20 [] "0:12:syntax error" 12 (by rfl)
  exact h.trans (by decide)

/-- C2 counterexample: the event text `0:0:x` matches the error form with
line number 0, yet nothing is decorated (the claim says line 0 is decorated). -/
theorem errorLine_zero_counterexample :
    matchGlslError "0:0:x" = some 0 ∧ handleWasmStderr 5 [] "0:0:x" = [] :=
  ⟨rfl, rfl⟩

theorem debounceFires_pending (d : Nat) :
    ∀ (ts : List Nat) (t0 : Nat), stepsWithin d (t0 :: ts) = true →
      debounceFires d ts (some (t0 + d)) = [ts.getLastD t0 + d] := by
  intro ts
  induction ts with
  | nil => intro t0 hw; rfl
  | cons t1 rest ih =>
    intro t0 hw
    simp only [stepsWithin, Bool.and_eq_true, decide_eq_true_eq] at hw
    obtain ⟨⟨hlt, hgap⟩, hw1⟩ := hw
    simp only [debounceFires]
    rw [if_neg (by omega)]
    rw [ih t1 hw1, List.getLastD_cons]

/-- C3: with edits strictly ascending and each gap below the debounce window,
the debounce timer body runs exactly once, at exactly `d` after the last edit
(every earlier timer is cancelled by the next edit); when it runs, the
callback is invoked iff the live text differs from the stored snapshot — in
particular not at all when they are equal. -/
theorem debounce_single_callback (d t0 : Nat) (rest : List Nat)
    (h : stepsWithin d (t0 :: rest) = true) :
    debounceFires d (t0 :: rest) none = [(t0 :: rest).getLastD 0 + d]
    ∧ (∀ code snap : String, debounceCallbackRuns code snap = true ↔ code ≠ snap) := by
  constructor
  · show debounceFires d rest (some (t0 + d)) = _
    rw [debounceFires_pending d rest t0 h, List.getLastD_cons]
  · intro code snap
    simp [debounceCallbackRuns]

/-- C3 witness: five edits at 0,50,100,150,200 with a 300ms window produce a
single timer firing at 500 = 200 + 300, and an unchanged text suppresses the
callback. -/
theorem debounce_single_callback_witness :
    debounceFires 300 [0, 50, 100, 150, 200] none = [500]
    ∧ debounceCallbackRuns "code" "code" = false := by
  have h := debounce_single_callback 300 0 [50, 100, 150, 200] (by decide)
  exact ⟨h.1.trans (by decide), by decide⟩

theorem jsSetDedup_cons {α : Type} [DecidableEq α] (a : α) (as : List α) :
    jsSetDedup (a :: as) = a :: jsSetDedup (as.filter (fun b => decide (b ≠ a))) := by
  rw [jsSetDedup]

theorem mem_jsSetDedup {α : Type} [DecidableEq α] (l : List α) (x : α) :
    x ∈ jsSetDedup l ↔ x ∈ l := by
  have key : ∀ (n : Nat) (l : List α), l.length ≤ n → ∀ x : α, (x ∈ jsSetDedup l ↔ x ∈ l) := by
    intro n
    induction n with
    | zero =>
      intro l h x
      have hl : l = [] := List.eq_nil_of_length_eq_zero (Nat.le_zero.mp h)
      subst hl; simp [jsSetDedup]
    | succ n ih =>
      intro l h x
      match l with
      | [] => simp [jsSetDedup]
      | a :: as =>
        rw [jsSetDedup_cons]
        simp only [List.mem_cons]
        by_cases hx : x = a
        · simp [hx]
        · have hlen : (as.filter (fun b => decide (b ≠ a))).length ≤ n :=
            le_trans (List.length_filter_le _ _) (by simpa using h)
          rw [ih _ hlen x]
          simp [List.mem_filter, hx]
  exact key l.length l le_rfl x

theorem jsSetDedup_sublist {α : Type} [DecidableEq α] (l : List α) :
    List.Sublist (jsSetDedup l) l := by
  have key : ∀ (n : Nat) (l : List α), l.length ≤ n → List.Sublist (jsSetDedup l) l := by
    intro n
    induction n with
    | zero =>
      intro l h
      have hl : l = [] := List.eq_nil_of_length_eq_zero (Nat.le_zero.mp h)
      subst hl; simp [jsSetDedup]
    | succ n ih =>
      intro l h
      match l with
      | [] => simp [jsSetDedup]
      | a :: as =>
        rw [jsSetDedup_cons]
        refine List.Sublist.cons₂ a ?_
        have hlen : (as.filter (fun b => decide (b ≠ a))).length ≤ n :=
          le_trans (List.length_filter_le _ _) (by simpa using h)
        exact (ih _ hlen).trans (List.filter_sublist as)
  exact key l.length l le_rfl

theorem jsSetDedup_nodup {α : Type} [DecidableEq α] (l : List α) :
    (jsSetDedup l).Nodup := by
  have key : ∀ (n : Nat) (l : List α), l.length ≤ n → (jsSetDedup l).Nodup := by
    intro n
    induction n with
    | zero =>
      intro l h
      have hl : l = [] := List.eq_nil_of_length_eq_zero (Nat.le_zero.mp h)
      subst hl; simp [jsSetDedup]
    | succ n ih =>
      intro l h
      match l with
      | [] => simp [jsSetDedup]
      | a :: as =>
        rw [jsSetDedup_cons]
        have hlen : (as.filter (fun b => decide (b ≠ a))).length ≤ n :=
          le_trans (List.length_filter_le _ _) (by simpa using h)
        refine List.nodup_cons.mpr ⟨?_, ih _ hlen⟩
        intro hmem
        have := (mem_jsSetDedup _ _).mp hmem
        simp [List.mem_filter] at this
  exact key l.length l le_rfl

theorem jsSetDedup_append {α : Type} [DecidableEq α] (A B : List α) :
    jsSetDedup (A ++ B)
      = jsSetDedup A ++ jsSetDedup (B.filter (fun b => decide (b ∉ A))) := by
  have key : ∀ (n : Nat) (A B : List α), A.length ≤ n →
      jsSetDedup (A ++ B)
        = jsSetDedup A ++ jsSetDedup (B.filter (fun b => decide (b ∉ A))) := by
    intro n
    induction n with
    | zero =>
      intro A B h
      have hl : A = [] := List.eq_nil_of_length_eq_zero (Nat.le_zero.mp h)
      subst hl
      simp [jsSetDedup]
    | succ n ih =>
      intro A B h
      match A with
      | [] => simp [jsSetDedup]
      | a :: A1 =>
        rw [List.cons_append, jsSetDedup_cons, List.filter_append, jsSetDedup_cons]
        have hlen : (A1.filter (fun b => decide (b ≠ a))).length ≤ n :=
          le_trans (List.length_filter_le _ _) (by simpa using h)
        rw [ih _ _ hlen]
        rw [List.cons_append]
        congr 2
        rw [List.filter_filter]
        congr 1
        refine List.filter_congr ?_
        intro b _
        by_cases hb : b = a
        · subst hb
          simp
        · simp only [List.mem_filter, List.mem_cons]
          by_cases hb2 : b ∈ A1 <;> simp [hb, hb2]
  exact key A.length A B le_rfl

/-- C4: switchTab with the already-active buffer is a no-op returning the
state unchanged without invoking the flush callback; with a different buffer
it invokes the flush callback exactly when the debounce-timeout field was
pending, snapshots the widget text into the outgoing buffer's slot, sets the
new active buffer, updates the syntax mode, and loads the incoming buffer's
stored text into the widget. -/
theorem switchTab_contract (s : EditorState) (ty : ShaderTab) :
    switchTab s ty =
      if ty = s.activeTab then (s, false)
      else ({ activeTab := ty,
              contentFrag := if s.activeTab = ShaderTab.frag then s.editorValue else s.contentFrag,
              contentVert := if s.activeTab = ShaderTab.vert then s.editorValue else s.contentVert,
              editorValue := s.content ty,
              editorMode := ty.modeOf,
              updateTimeout := s.updateTimeout }, s.updateTimeout.isSome) := by
  simp only [switchTab]
  by_cases h : ty = s.activeTab
  · rw [if_pos h, if_pos h]
  · rw [if_neg h, if_neg h]
    cases hty : ty <;> cases hA : s.activeTab <;>
      simp_all [EditorState.setContentSlot, EditorState.content, ShaderTab.modeOf]

/-- C5: the loadGist guard: a call with the in-flight/loaded identifier
returns at once without touching state or the network; a call with a fresh
identifier issues exactly one fetch and records the identifier, so an
immediately following call for the same identifier issues none; the catch
handler resets the identifier to null, after which a retry fetches again. -/
theorem loadGist_guard (s0 s1 : GistLoadState) (gid : String) :
    (s0.currentGistId = some gid → loadGistStart s0 gid = (s0, false))
    ∧ (s0.currentGistId ≠ some gid → (loadGistStart s0 gid).2 = true)
    ∧ ((loadGistStart (loadGistStart s0 gid).1 gid).2 = false)
    ∧ ((loadGistCatch s1).currentGistId = none)
    ∧ ((loadGistStart (loadGistCatch s1) gid).2 = true) := by
  refine ⟨fun h => ?_, fun h => ?_, ?_, rfl, ?_⟩
  · simp [loadGistStart, h]
  · simp [loadGistStart, h]
  · by_cases h : s0.currentGistId = some gid <;> simp [loadGistStart, h]
  · simp [loadGistStart, loadGistCatch]

/-- C6: getRetainedState returns a duplicate-free list; it is exactly the
deduplicated command-history log followed by the derived pairs not already in
the log (history entries first); the whole result is a sublist of the
concatenation, so first-occurrence order is preserved; and every derived
entry is a `name,value` pair for a checked name whose query answered a
non-empty value. -/
theorem getRetainedState_dedup_order (env : ModuleEnv) (s : BridgeState) :
    ((getRetainedState env s).2).Nodup
    ∧ (getRetainedState env s).2
        = jsSetDedup s.cmdsHistory
          ++ jsSetDedup ((derivedPairs env).filter (fun p => decide (p ∉ s.cmdsHistory)))
    ∧ List.Sublist (getRetainedState env s).2 (s.cmdsHistory ++ derivedPairs env)
    ∧ (∀ p ∈ derivedPairs env, ∃ cmd a, cmd ∈ cmds_state ++ cmds_camera
        ∧ queryBridge env cmd = some a ∧ a ≠ "" ∧ p = cmd ++ "," ++ a) := by
  refine ⟨jsSetDedup_nodup _, jsSetDedup_append _ _, jsSetDedup_sublist _, ?_⟩
  intro p hp
  simp only [derivedPairs, List.mem_filterMap] at hp
  obtain ⟨cmd, hcmd, hf⟩ := hp
  have hcmd2 : cmd ∈ cmds_state ++ cmds_camera := (mem_jsSetDedup _ _).mp hcmd
  cases hq : queryBridge env cmd with
  | none => rw [hq] at hf; simp at hf
  | some a =>
    rw [hq] at hf
    dsimp only at hf
    by_cases ha : a = ""
    · rw [if_pos ha] at hf; simp at hf
    · rw [if_neg ha] at hf
      simp only [Option.some.injEq] at hf
      exact ⟨cmd, a, hcmd2, hq, ha, hf.symm⟩

/-- C10: getRetainedState never modifies the bridge state — the command
history after a call equals its value before (the result is assembled from a
copy), so an immediately repeated call returns the same result and no derived
pair accumulates into the replay log. -/
theorem getRetainedState_frame (env : ModuleEnv) (s : BridgeState) :
    (getRetainedState env s).1 = s
    ∧ ((getRetainedState env s).1).cmdsHistory = s.cmdsHistory
    ∧ (getRetainedState env ((getRetainedState env s).1)).2 = (getRetainedState env s).2 :=
  ⟨rfl, rfl, rfl⟩

/-- C7 (amended): without a credential, saveGist alerts and returns null with
no network request and no change to the history; when the remote save request
fails, the error propagates to the caller (reported) and the history is not
mutated beyond the pruning step — it equals the pruned history, and in
particular no entry for the attempted save is appended. -/
theorem saveGist_failure (env : SaveEnv) (hist : List String) :
    (env.token = none →
      saveGist env hist
        = { result := .returned none, history := hist, networkUsed := false, alerted := true })
    ∧ (∀ tk, env.token = some tk → env.saveResponse = none →
        saveGist env hist
          = { result := .thrown, history := pruneGistHistory env.check hist,
              networkUsed := true, alerted := false }) := by
  constructor
  · intro h
    simp [saveGist, h]
  · intro tk h1 h2
    simp [saveGist, h1, h2]

/-- C7 counterexample: with a credential present, a history whose single
entry's existence probe reports the gist gone, and a failing save POST, the
failure is reported (rethrown) yet the history was mutated by the save
operation: pruning already dropped the entry, so it no longer equals its
pre-save value. -/
theorem saveGist_prune_counterexample :
    (saveGist saveFailEnv ["g1"]).result = SaveResult.thrown
    ∧ (saveGist saveFailEnv ["g1"]).history = []
    ∧ (["g1"] : List String) ≠ [] := by
  refine ⟨rfl, rfl, by decide⟩

/-- C8 (amended): readiness is the conjunction of the module handle and the
load-completion flag, but sendCommand and query guard only on the handle (not
the flag); with the handle absent, sendCommand logs the `Module not ready.`
warning and makes no module call but still appends listen-matching commands
to the command history, and query returns null; with the handle present the
module is called even if the load flag is unset, and a throwing call is
caught and logged, so no exception propagates from either method. -/
theorem bridge_readiness (env : ModuleEnv) (s : BridgeState) (cmd q : String) :
    isModuleReady env = (env.modulePresent && env.moduleLoaded)
    ∧ (env.modulePresent = false →
        (sendCommand env s cmd).warnedNotReady = true
        ∧ (sendCommand env s cmd).moduleCalled = false
        ∧ (sendCommand env s cmd).state.cmdsHistory
            = s.cmdsHistory ++ (if startsWithAnyListen cmd then [cmd] else [])
        ∧ queryBridge env q = none)
    ∧ (env.modulePresent = true →
        (sendCommand env s cmd).moduleCalled = true
        ∧ (sendCommand env s cmd).errorLogged = env.commandThrows cmd) := by
  refine ⟨rfl, fun h => ⟨?_, ?_, ?_, ?_⟩, fun h => ?_⟩
  · simp [sendCommand, h]
  · simp [sendCommand, h]
  · by_cases hsw : startsWithAnyListen cmd <;> simp [sendCommand, h, hsw]
  · simp [queryBridge, h]
  · by_cases hc : env.commandThrows cmd <;> simp [sendCommand, h, hc]

/-- C8 counterexample: in the not-ready state (no module handle) the listed
command `plane` is still appended to the bridge's command history, so the
not-ready send is not free of state changes; moreover a present handle with
the load flag unset is not ready by the readiness predicate, yet sendCommand
calls into the module anyway. -/
theorem bridge_readiness_counterexample :
    isModuleReady notReadyEnv = false
    ∧ (sendCommand notReadyEnv { cmdsHistory := [] } "plane").warnedNotReady = true
    ∧ (sendCommand notReadyEnv { cmdsHistory := [] } "plane").state.cmdsHistory = ["plane"]
    ∧ (["plane"] : List String) ≠ []
    ∧ isModuleReady halfLoadedEnv = false
    ∧ (sendCommand halfLoadedEnv { cmdsHistory := [] } "help").moduleCalled = true := by
  refine ⟨rfl, rfl, by decide, by decide, rfl, by decide⟩

theorem tryWrite_resolves (env : WasmEnv) (name : String) :
    ∀ (n a : Nat), 21 - a ≤ n →
      (tryWrite env name a).resolved = true
      ∧ (tryWrite env name a).attemptsMade + min a 20 ≤ 21
      ∧ (tryWrite env name a).delaysTaken + min a 20 ≤ 20 := by
  intro n
  induction n with
  | zero =>
    intro a h
    rw [tryWrite, if_pos (by omega)]
    exact ⟨rfl, by dsimp only; omega, by dsimp only; omega⟩
  | succ n ih =>
    intro a h
    rw [tryWrite]
    by_cases h1 : a + 1 > 20
    · rw [if_pos h1]
      exact ⟨rfl, by dsimp only; omega, by dsimp only; omega⟩
    · rw [if_neg h1]
      by_cases h2 : env.readyAt (a + 1)
      · rw [if_pos h2]
        by_cases h3 : env.writeThrows
        · rw [if_pos h3]
          exact ⟨rfl, by dsimp only; omega, by dsimp only; omega⟩
        · rw [if_neg h3]
          exact ⟨rfl, by dsimp only; omega, by dsimp only; omega⟩
      · rw [if_neg h2]
        have hr := ih (a + 1) (by omega)
        dsimp only
        refine ⟨hr.1, ?_, ?_⟩ <;> dsimp only <;> omega

theorem tryWrite_timeout (env : WasmEnv) (name : String) :
    ∀ (n a : Nat), 21 - a ≤ n → a ≤ 20 →
      (∀ k, a < k → k ≤ 20 → env.readyAt k = false) →
      tryWrite env name a
        = { resolved := true, wrote := false, assetRegistered := none, cubemapOn := false,
            timedOut := true, attemptsMade := 21 - a, delaysTaken := 20 - a } := by
  intro n
  induction n with
  | zero => intro a h ha hk; omega
  | succ n ih =>
    intro a h ha hk
    rw [tryWrite]
    by_cases h1 : a + 1 > 20
    · rw [if_pos h1]
      have : a = 20 := by omega
      subst this
      rfl
    · rw [if_neg h1]
      rw [hk (a + 1) (by omega) (by omega)]
      rw [if_neg (by simp)]
      rw [ih (a + 1) (by omega) (by omega) (fun k hk1 hk2 => hk k (by omega) hk2)]
      have e1 : 21 - (a + 1) + 1 = 21 - a := by omega
      have e2 : 20 - (a + 1) + 1 = 20 - a := by omega
      dsimp only
      rw [e1, e2]

theorem tryWrite_success (env : WasmEnv) (name : String) :
    ∀ (n a k : Nat), 21 - a ≤ n → a < k → k ≤ 20 →
      env.readyAt k = true →
      (∀ j, a < j → j < k → env.readyAt j = false) →
      env.writeThrows = false →
      tryWrite env name a
        = { resolved := true, wrote := true, assetRegistered := some (name, extOf name),
            cubemapOn := extOf name == "hdr", timedOut := false,
            attemptsMade := k - a, delaysTaken := k - a - 1 } := by
  intro n
  induction n with
  | zero => intro a k h hak hk20 hr hj hw; omega
  | succ n ih =>
    intro a k h hak hk20 hr hj hw
    rw [tryWrite]
    rw [if_neg (by omega)]
    by_cases he : k = a + 1
    · subst he
      rw [hr, if_pos rfl, hw, if_neg (by simp)]
      have e1 : a + 1 - a = 1 := by omega
      rw [e1]
    · rw [hj (a + 1) (by omega) (by omega)]
      rw [if_neg (by simp)]
      rw [ih (a + 1) k (by omega) (by omega) hk20 hr (fun j hj1 hj2 => hj j (by omega) hj2) hw]
      have e1 : k - (a + 1) + 1 = k - a := by omega
      have e2 : k - (a + 1) - 1 + 1 = k - a - 1 := by omega
      dsimp only
      rw [e1, e2]

/-- C9: loadToWasm always terminates with a resolved promise after at most 20
readiness polls (500ms apart); when no poll within the 20 attempts sees the
module ready it times out, logs, and still resolves with nothing written;
when the k-th poll is the first to see it ready (and the write does not
throw), the bytes are written, the module's asset-registration entry point is
invoked with the file's lower-cased extension, and for extension `hdr` the
`cubemap,on` command is additionally issued. -/
theorem loadToWasm_bounded_retry (env : WasmEnv) (name : String) :
    (loadToWasm env name).resolved = true
    ∧ (loadToWasm env name).attemptsMade ≤ 21
    ∧ (loadToWasm env name).delaysTaken ≤ 20
    ∧ ((∀ k, 1 ≤ k → k ≤ 20 → env.readyAt k = false) →
        loadToWasm env name
          = { resolved := true, wrote := false, assetRegistered := none, cubemapOn := false,
              timedOut := true, attemptsMade := 21, delaysTaken := 20 })
    ∧ (∀ k, 1 ≤ k → k ≤ 20 → env.readyAt k = true →
        (∀ j, 1 ≤ j → j < k → env.readyAt j = false) →
        env.writeThrows = false →
        loadToWasm env name
          = { resolved := true, wrote := true, assetRegistered := some (name, extOf name),
              cubemapOn := extOf name == "hdr", timedOut := false,
              attemptsMade := k, delaysTaken := k - 1 }) := by
  have hres := tryWrite_resolves env name 21 0 (by omega)
  simp only [loadToWasm]
  refine ⟨hres.1, by omega, by omega, ?_, ?_⟩
  · intro hk
    have := tryWrite_timeout env name 21 0 (by omega) (by omega)
      (fun k h1 h2 => hk k (by omega) h2)
    simpa using this
  · intro k h1 h2 hr hj hw
    have := tryWrite_success env name 21 0 k (by omega) (by omega) h2 hr
      (fun j hj1 hj2 => hj j (by omega) hj2) hw
    simpa using this
